import Mathlib

/-!
Verification of the SIA real-time voice session client
(`VoiceWebSocketClient` and the `AIVoiceInterface` UI handlers).

The client is embedded shallowly: each JavaScript method becomes a Lean
function on an explicit state record, and the asynchronous parts
(the playback loop, the silence timer, reconnection) become small
labelled transition systems whose events are the scheduling points of
the original code.
-/

namespace Sia

/-!
## Audio playback queue

Model of `ws.onmessage` (binary branch), `playAudioQueue` and
`clearAudioQueue`.  A state carries the pending queue, the `isPlaying`
flag, and the set of live `playAudioQueue` invocations (`loops`): an
entry `none` is an invocation at its `while` head, an entry `some c`
is an invocation currently awaiting the end of chunk `c`'s playback
(between `source.start()` and `onended`).  `played` records completed
playbacks in completion order and `arrived` records every pushed chunk
in arrival order (ghost history used to state ordering).  Chunks are
identified by naturals; `ok c` says chunk `c` decodes successfully
(`decodeAudioData` does not throw).
-/

structure PlayerState where
  audioQueue : List Nat
  isPlaying : Bool
  loops : List (Option Nat)
  played : List Nat
  arrived : List Nat
deriving DecidableEq

inductive PlayEvent
  /-- a binary frame arrives: `audioQueue.push` then `playAudioQueue()`,
  whose guard `if (isPlaying || length === 0) return` runs synchronously,
  so a new loop instance starts only when `isPlaying` is false. -/
  | arrive (c : Nat)
  /-- loop instance `i`, at its `while` head with a nonempty queue,
  shifts the head chunk; on decode success it starts playing it,
  on decode failure the chunk is dropped and the loop continues. -/
  | startChunk (i : Nat)
  /-- the `onended` callback of the chunk loop instance `i` was playing
  fires; the loop returns to its `while` head. -/
  | endChunk (i : Nat)
  /-- loop instance `i`, at its `while` head with an empty queue, exits:
  the `finally` block sets `isPlaying := false`. -/
  | exitLoop (i : Nat)
  /-- Call of `clearAudioQueue()`: `audioQueue = []; isPlaying = false`.
  Nothing is done to a chunk already mid-playback. -/
  | clear
deriving DecidableEq

def applyPlay (ok : Nat → Bool) (s : PlayerState) : PlayEvent → PlayerState
  | .arrive c =>
      if s.isPlaying then
        { s with audioQueue := s.audioQueue ++ [c], arrived := s.arrived ++ [c] }
      else
        { s with audioQueue := s.audioQueue ++ [c], arrived := s.arrived ++ [c],
                 isPlaying := true, loops := s.loops ++ [none] }
  | .startChunk i =>
      match s.loops[i]?, s.audioQueue with
      | some none, c :: rest =>
          if ok c then { s with loops := s.loops.set i (some c), audioQueue := rest }
          else { s with audioQueue := rest }
      | _, _ => s
  | .endChunk i =>
      match s.loops[i]? with
      | some (some c) => { s with loops := s.loops.set i none, played := s.played ++ [c] }
      | _ => s
  | .exitLoop i =>
      match s.loops[i]?, s.audioQueue with
      | some none, [] => { s with loops := s.loops.eraseIdx i, isPlaying := false }
      | _, _ => s
  | .clear => { s with audioQueue := [], isPlaying := false }

def initPlayer : PlayerState :=
  { audioQueue := [], isPlaying := false, loops := [], played := [], arrived := [] }

def runPlay (ok : Nat → Bool) (s : PlayerState) (es : List PlayEvent) : PlayerState :=
  es.foldl (applyPlay ok) s

/-- The chunks whose playback is in progress right now. -/
def inflight (s : PlayerState) : List Nat := s.loops.filterMap id

/-- Invariant of the playback system as long as `clearAudioQueue` is not
called: a single loop instance at most, the `isPlaying` flag tracks
loop liveness, and completed + in-progress + pending (decodable)
chunks are exactly the decodable chunks in arrival order. -/
def PlayInv (ok : Nat → Bool) (s : PlayerState) : Prop :=
  s.loops.length ≤ 1 ∧
  (s.isPlaying = true ↔ s.loops ≠ []) ∧
  s.played ++ inflight s ++ s.audioQueue.filter ok = s.arrived.filter ok

theorem playInv_init (ok : Nat → Bool) : PlayInv ok initPlayer := by
  refine ⟨by simp [initPlayer], by simp [initPlayer], by simp [initPlayer, inflight]⟩

theorem playInv_step (ok : Nat → Bool) (s : PlayerState) (e : PlayEvent)
    (hInv : PlayInv ok s) (hne : e ≠ PlayEvent.clear) :
    PlayInv ok (applyPlay ok s e) := by
  obtain ⟨hlen, hflag, horder⟩ := hInv
  have hloops : s.loops = [] ∨ ∃ x, s.loops = [x] := by
    match h : s.loops with
    | [] => exact Or.inl rfl
    | [x] => exact Or.inr ⟨x, rfl⟩
    | x :: y :: t => rw [h] at hlen; simp at hlen
  cases e with
  | arrive c =>
      by_cases hp : s.isPlaying
      · have hne' : s.loops ≠ [] := hflag.mp hp
        refine ⟨by simpa [applyPlay, hp] using hlen, ?_, ?_⟩
        · simpa [applyPlay, hp] using hflag
        · simp only [applyPlay, hp, if_true, inflight]
          simp only [inflight] at horder
          simp [List.filter_append, ← List.append_assoc, horder]
      · have hnil : s.loops = [] := by
          by_contra hcon
          exact hp (hflag.mpr hcon)
        refine ⟨?_, ?_, ?_⟩
        · simp [applyPlay, hp, hnil]
        · simp [applyPlay, hp, hnil]
        · have hq : s.played ++ List.filter ok s.audioQueue = List.filter ok s.arrived := by
            simpa [inflight, hnil] using horder
          simp only [applyPlay, if_neg hp]
          simp [inflight, hnil, List.filter_append, ← List.append_assoc, hq]
  | startChunk i =>
      simp only [applyPlay]
      split
      case h_1 c rest heq hq =>
        have hi : i < s.loops.length := by
          have := List.getElem?_eq_some_iff.mp heq
          exact this.1
        obtain ⟨x, hx⟩ : ∃ x, s.loops = [x] := by
          rcases hloops with h0 | hx
          · rw [h0] at hi; simp at hi
          · exact hx
        have hi0 : i = 0 := by rw [hx] at hi; simp at hi; omega
        have hxnone : x = none := by
          rw [hx, hi0] at heq; simp at heq; exact heq
        subst hi0; subst hxnone
        rw [hq] at horder
        by_cases hok : ok c
        · simp only [hok, if_true]
          refine ⟨by simp [hx], by simpa [hx] using hflag, ?_⟩
          simp only [inflight, hx] at horder ⊢
          simp only [List.filterMap, id] at horder ⊢
          simp only [List.filter_cons, hok] at horder
          simpa using horder
        · simp only [hok, if_false]
          refine ⟨hlen, hflag, ?_⟩
          simp only [inflight, hx] at horder ⊢
          simp only [List.filter_cons, hok] at horder
          simpa using horder
      case h_2 =>
        exact ⟨hlen, hflag, horder⟩
  | endChunk i =>
      simp only [applyPlay]
      split
      case h_1 c heq =>
        have hi : i < s.loops.length := (List.getElem?_eq_some_iff.mp heq).1
        obtain ⟨x, hx⟩ : ∃ x, s.loops = [x] := by
          rcases hloops with h0 | hx
          · rw [h0] at hi; simp at hi
          · exact hx
        have hi0 : i = 0 := by rw [hx] at hi; simp at hi; omega
        have hxc : x = some c := by
          rw [hx, hi0] at heq; simp at heq; exact heq
        subst hi0; subst hxc
        refine ⟨by simp [hx], by simpa [hx] using hflag, ?_⟩
        simp only [inflight, hx] at horder ⊢
        simp only [List.filterMap, id] at horder ⊢
        simpa [List.append_assoc] using horder
      case h_2 =>
        exact ⟨hlen, hflag, horder⟩
  | exitLoop i =>
      simp only [applyPlay]
      split
      case h_1 heq hq =>
        have hi : i < s.loops.length := (List.getElem?_eq_some_iff.mp heq).1
        obtain ⟨x, hx⟩ : ∃ x, s.loops = [x] := by
          rcases hloops with h0 | hx
          · rw [h0] at hi; simp at hi
          · exact hx
        have hi0 : i = 0 := by rw [hx] at hi; simp at hi; omega
        have hxnone : x = none := by
          rw [hx, hi0] at heq; simp at heq; exact heq
        subst hi0; subst hxnone
        refine ⟨by simp [hx], by simp [hx], ?_⟩
        simp only [inflight, hx, hq] at horder ⊢
        simpa using horder
      case h_2 =>
        exact ⟨hlen, hflag, horder⟩
  | clear => exact absurd rfl hne

theorem playInv_run (ok : Nat → Bool) (s : PlayerState) (es : List PlayEvent)
    (hInv : PlayInv ok s) (hcf : ∀ e ∈ es, e ≠ PlayEvent.clear) :
    PlayInv ok (runPlay ok s es) := by
  induction es generalizing s with
  | nil => exact hInv
  | cons e es ih =>
      have h1 : e ≠ PlayEvent.clear := hcf e (by simp)
      have h2 : ∀ e' ∈ es, e' ≠ PlayEvent.clear := fun e' he' => hcf e' (by simp [he'])
      exact ih (applyPlay ok s e) (playInv_step ok s e hInv h1) h2

/-- C1: for every sequence of inbound binary audio chunks (and playback
scheduling points) containing no `clearAudioQueue` call, at most one
`playAudioQueue` loop instance is ever live (an enqueue while
`isPlaying` is true never starts a second loop), at most one chunk is
mid-playback at any time (no two chunks' playback overlap), and the
completed playbacks, followed by the chunk in flight and the pending
decodable chunks, are exactly the decodable chunks in arrival order —
strict FIFO playback. -/
theorem playback_fifo_no_overlap (ok : Nat → Bool) (es : List PlayEvent)
    (hcf : ∀ e ∈ es, e ≠ PlayEvent.clear) :
    (runPlay ok initPlayer es).loops.length ≤ 1 ∧
    (inflight (runPlay ok initPlayer es)).length ≤ 1 ∧
    (runPlay ok initPlayer es).played ++ inflight (runPlay ok initPlayer es) ++
        (runPlay ok initPlayer es).audioQueue.filter ok =
      (runPlay ok initPlayer es).arrived.filter ok := by
  obtain ⟨h1, _, h3⟩ := playInv_run ok initPlayer es (playInv_init ok) hcf
  refine ⟨h1, ?_, h3⟩
  calc (inflight (runPlay ok initPlayer es)).length
      ≤ (runPlay ok initPlayer es).loops.length := List.length_filterMap_le _ _
    _ ≤ 1 := h1

/-- Witness for C1 at a concrete clear-free run: two chunks arrive, the
first is played to completion, the second is mid-playback. -/
theorem playback_fifo_no_overlap_witness :
    (runPlay (fun _ => true) initPlayer
        [.arrive 5, .startChunk 0, .arrive 7, .endChunk 0, .startChunk 0]).loops.length ≤ 1 ∧
    (inflight (runPlay (fun _ => true) initPlayer
        [.arrive 5, .startChunk 0, .arrive 7, .endChunk 0, .startChunk 0])).length ≤ 1 ∧
    (runPlay (fun _ => true) initPlayer
          [.arrive 5, .startChunk 0, .arrive 7, .endChunk 0, .startChunk 0]).played ++
        inflight (runPlay (fun _ => true) initPlayer
          [.arrive 5, .startChunk 0, .arrive 7, .endChunk 0, .startChunk 0]) ++
        (runPlay (fun _ => true) initPlayer
          [.arrive 5, .startChunk 0, .arrive 7, .endChunk 0, .startChunk 0]).audioQueue.filter
          (fun _ => true) =
      (runPlay (fun _ => true) initPlayer
          [.arrive 5, .startChunk 0, .arrive 7, .endChunk 0, .startChunk 0]).arrived.filter
        (fun _ => true) :=
  playback_fifo_no_overlap (fun _ => true)
    [.arrive 5, .startChunk 0, .arrive 7, .endChunk 0, .startChunk 0] (by decide)

/-- C2 counterexample: `clearAudioQueue()` does not halt the chunk that is
mid-playback (the code never calls `source.stop()`), and an enqueue
after the clear starts a second loop whose playback overlaps the
pre-clear chunk's still-running playback.  Run: chunk 0 arrives and
starts playing; `clearAudioQueue()`; chunk 1 arrives and starts
playing.  After the clear chunk 0 is still in flight, and at the end
chunks 0 and 1 are in flight simultaneously under two live loops. -/
theorem clear_overlap_counterexample :
    inflight (runPlay (fun _ => true) initPlayer
        [.arrive 0, .startChunk 0, .clear]) = [0] ∧
    inflight (runPlay (fun _ => true) initPlayer
        [.arrive 0, .startChunk 0, .clear, .arrive 1, .startChunk 1]) = [0, 1] ∧
    (runPlay (fun _ => true) initPlayer
        [.arrive 0, .startChunk 0, .clear, .arrive 1, .startChunk 1]).loops.length = 2 := by
  decide

/-- C2 amended: `clearAudioQueue()` leaves the audio queue empty and
resets `isPlaying`, but it does not halt an in-progress chunk playback
(the live loop instances are untouched); a subsequent enqueue starts
exactly one fresh playback loop, whose playback can overlap playback
begun before the clear. -/
theorem clear_empties_queue_playback_continues (ok : Nat → Bool) (s : PlayerState) (c : Nat) :
    (applyPlay ok s .clear).audioQueue = [] ∧
    (applyPlay ok s .clear).isPlaying = false ∧
    (applyPlay ok s .clear).loops = s.loops ∧
    (applyPlay ok (applyPlay ok s .clear) (.arrive c)).loops = s.loops ++ [none] := by
  refine ⟨rfl, rfl, rfl, ?_⟩
  simp [applyPlay]

/-!
## Capture pipeline silence timer

Model of `mediaRecorder.ondataavailable` and `resetTurnEndTimer`.
`turnEndTimer` holds the remaining milliseconds of the pending
one-shot `setTimeout`, `sent` the outbound commands emitted so far.
A `chunk` event is a produced audio chunk (it calls
`resetTurnEndTimer`, replacing any pending timer with a fresh
`silenceDuration` one); `tick d` is `d` milliseconds of wall time with
no chunk: if the pending timeout elapses within it the callback runs
once and the timer is gone (a `setTimeout` does not re-arm itself). -/

inductive OutCommand
  | turnEnd
  | ping
  | stop
deriving DecidableEq

def silenceDuration : Nat := 2000

structure CaptureState where
  turnEndTimer : Option Nat
  sent : List OutCommand
  isConnected : Bool
deriving DecidableEq

inductive CapEvent
  | chunk
  | tick (d : Nat)
deriving DecidableEq

def applyCap (s : CaptureState) : CapEvent → CaptureState
  | .chunk => { s with turnEndTimer := some silenceDuration }
  | .tick d =>
      match s.turnEndTimer with
      | none => s
      | some t =>
          if t ≤ d then
            { s with turnEndTimer := none,
                     sent := if s.isConnected then s.sent ++ [.turnEnd] else s.sent }
          else { s with turnEndTimer := some (t - d) }

def runCap (s : CaptureState) (es : List CapEvent) : CaptureState :=
  es.foldl applyCap s

def initCap : CaptureState :=
  { turnEndTimer := none, sent := [], isConnected := true }

theorem runCap_timer_gone (s : CaptureState) (ds : List Nat)
    (hs : s.turnEndTimer = none) :
    runCap s (ds.map CapEvent.tick) = s := by
  induction ds with
  | nil => rfl
  | cons d ds ih =>
      have h1 : applyCap s (CapEvent.tick d) = s := by
        simp [applyCap, hs]
      simp only [List.map_cons, runCap, List.foldl_cons]
      rw [show List.foldl applyCap (applyCap s (CapEvent.tick d)) (ds.map CapEvent.tick) =
            runCap (applyCap s (CapEvent.tick d)) (ds.map CapEvent.tick) from rfl, h1]
      exact ih

theorem runCap_armed (t : Nat) (s : CaptureState) (ds : List Nat)
    (hs : s.turnEndTimer = some t) (ht : 1 ≤ t) (hc : s.isConnected = true) :
    runCap s (ds.map CapEvent.tick) =
      if t ≤ ds.sum then
        { s with turnEndTimer := none, sent := s.sent ++ [OutCommand.turnEnd] }
      else { s with turnEndTimer := some (t - ds.sum) } := by
  induction ds generalizing s t with
  | nil =>
      have : ¬ t ≤ ([] : List Nat).sum := by simp; omega
      simp only [List.map_nil, runCap, List.foldl_nil, if_neg this]
      cases s with
      | mk timer sent conn =>
          simp only [List.sum_nil, Nat.sub_zero]
          simp at hs
          simp [hs]
  | cons d ds ih =>
      simp only [List.map_cons, runCap, List.foldl_cons]
      by_cases hd : t ≤ d
      · have hstep : applyCap s (CapEvent.tick d) =
            { s with turnEndTimer := none, sent := s.sent ++ [OutCommand.turnEnd] } := by
          simp [applyCap, hs, hd, hc]
        rw [show List.foldl applyCap (applyCap s (CapEvent.tick d)) (ds.map CapEvent.tick) =
              runCap (applyCap s (CapEvent.tick d)) (ds.map CapEvent.tick) from rfl, hstep,
            runCap_timer_gone _ _ rfl]
        have hsum : t ≤ (d :: ds).sum := by simp [List.sum_cons]; omega
        rw [if_pos hsum]
      · have hstep : applyCap s (CapEvent.tick d) =
            { s with turnEndTimer := some (t - d) } := by
          simp [applyCap, hs, hd]
        rw [show List.foldl applyCap (applyCap s (CapEvent.tick d)) (ds.map CapEvent.tick) =
              runCap (applyCap s (CapEvent.tick d)) (ds.map CapEvent.tick) from rfl, hstep]
        have ih' := ih (t - d) { s with turnEndTimer := some (t - d) } rfl (by omega) hc
        rw [ih']
        simp only [List.sum_cons]
        by_cases hsum : t - d ≤ ds.sum
        · rw [if_pos hsum, if_pos (by omega)]
        · rw [if_neg hsum, if_neg (by omega)]
          have : t - d - ds.sum = t - (d + ds.sum) := by omega
          rw [this]

/-- C3 counterexample: after one chunk and a full 2000ms silence period
exactly one `turn_end` is sent, but the timer does not re-arm: a
second full 2000ms silence period with no chunk sends nothing further
(the `setTimeout` in `resetTurnEndTimer` is one-shot and its callback
does not reschedule itself), so the total is one command, not the two
the claim requires. -/
theorem turn_end_rearm_counterexample :
    (runCap initCap [.chunk, .tick 2000, .tick 2000]).sent = [OutCommand.turnEnd] ∧
    (runCap initCap [.chunk, .tick 2000, .tick 2000]).sent.length ≠ 2 := by
  decide

/-- C3 amended: while capture is active every produced chunk resets the
silence timer to 2000ms; if the timer elapses with no new chunk,
exactly one `turn_end` command is emitted for that armed period, and
the timer is then disarmed — it re-arms only when a further chunk is
produced, after which a further full silence period emits exactly one
further `turn_end`. -/
theorem turn_end_once_per_arm (s : CaptureState) (ds es : List Nat) :
    (applyCap s CapEvent.chunk).turnEndTimer = some silenceDuration ∧
    (runCap initCap
        (CapEvent.chunk :: ds.map CapEvent.tick ++ CapEvent.chunk :: es.map CapEvent.tick)).sent =
      (if silenceDuration ≤ ds.sum then [OutCommand.turnEnd] else []) ++
        (if silenceDuration ≤ es.sum then [OutCommand.turnEnd] else []) := by
  constructor
  · rfl
  · have h0 : applyCap initCap CapEvent.chunk =
        { turnEndTimer := some silenceDuration, sent := [], isConnected := true } := rfl
    have hrun : runCap initCap
        (CapEvent.chunk :: ds.map CapEvent.tick ++ CapEvent.chunk :: es.map CapEvent.tick) =
        runCap (runCap (applyCap initCap CapEvent.chunk) (ds.map CapEvent.tick))
          (CapEvent.chunk :: es.map CapEvent.tick) := by
      simp [runCap, List.foldl_append]
    rw [hrun, h0, runCap_armed silenceDuration _ ds rfl (by simp [silenceDuration]) rfl]
    by_cases hds : silenceDuration ≤ ds.sum
    · rw [if_pos hds, if_pos hds]
      have h1 : runCap ⟨none, [] ++ [OutCommand.turnEnd], true⟩
            (CapEvent.chunk :: es.map CapEvent.tick) =
          runCap ⟨some silenceDuration, [OutCommand.turnEnd], true⟩
            (es.map CapEvent.tick) := by
        simp [runCap, applyCap]
      rw [h1, runCap_armed silenceDuration _ es rfl (by simp [silenceDuration]) rfl]
      by_cases hes : silenceDuration ≤ es.sum
      · rw [if_pos hes, if_pos hes]
      · rw [if_neg hes, if_neg hes]
        simp
    · rw [if_neg hds, if_neg hds]
      have h1 : runCap ⟨some (silenceDuration - ds.sum), [], true⟩
            (CapEvent.chunk :: es.map CapEvent.tick) =
          runCap ⟨some silenceDuration, [], true⟩ (es.map CapEvent.tick) := by
        simp [runCap, applyCap]
      rw [h1, runCap_armed silenceDuration _ es rfl (by simp [silenceDuration]) rfl]
      by_cases hes : silenceDuration ≤ es.sum
      · rw [if_pos hes, if_pos hes]
      · rw [if_neg hes, if_neg hes]
        simp

/-!
## Protocol dispatcher and session state

Model of `VoiceWebSocketClient.handleMessage`, `ws.onopen`,
`ws.onclose`, `send`, `disconnect`, `getSessionId`, together with the
`AIVoiceInterface` callback handlers that drive the UI status
(`TileButton.tsx`).  Outbound JSON objects are association lists of
string keys and values, so "no `command` field" is a statement about
the serialized object.  A `VoiceMsg` field that is `none` is an absent
JSON field; JavaScript truthiness of a string field (`message.text`,
`message.message`, ...) is `truthy`: absent and `""` are falsy. -/

inductive JVal
  | num (n : Int)
  | str (s : String)
deriving DecidableEq

abbrev JObj := List (String × JVal)

def initMsg (businessId userId : Int) : JObj :=
  [("business_id", JVal.num businessId), ("user_id", JVal.num userId)]

def cmdMsg (c : String) : JObj := [("command", JVal.str c)]

structure VoiceMsg where
  type : String
  session_id : Option String := none
  text : Option String := none
  is_final : Option Bool := none
  message : Option String := none
  spoken_text : Option String := none
  has_pending_work : Option Bool := none
  session_complete : Option Bool := none
deriving DecidableEq

def truthy : Option String → Bool
  | none => false
  | some s => !(s == "")

/-- Registered callback set of `VoiceClientConfig` (every callback is
optional in the source; the `AIVoiceInterface` registers all of them,
which is the default here). -/
structure Config where
  onSessionInit : Bool := true
  onTranscription : Bool := true
  onProcessing : Bool := true
  onAgentSpeaking : Bool := true
  onAgentFinished : Bool := true
  onInterrupted : Bool := true
  onError : Bool := true
  onTimeout : Bool := true
  onDisconnected : Bool := true
deriving DecidableEq

inductive Callback
  | sessionInit (id : String)
  | transcription (text : String) (isFinal : Bool)
  | processing (m : String)
  | agentSpeaking (t : String)
  | agentFinished (complete : Bool)
  | interrupted (spoken : String) (pending : Bool)
  | errorCb (m : String)
  | timeoutCb
  | disconnected
deriving DecidableEq

structure ClientState where
  cfg : Config
  sessionId : Option String
  isConnected : Bool
  wsOpen : Bool
  reconnectAttempts : Nat
deriving DecidableEq

def maxReconnectAttempts : Nat := 3

def reconnectDelay : Nat := 2000

/-- Method `send`: serializes and transmits only when the socket is open,
otherwise it is a silent no-op. -/
def sendJson (s : ClientState) (o : JObj) : List JObj :=
  if s.wsOpen then [o] else []

def getSessionId (s : ClientState) : Option String := s.sessionId

/-- The `switch (message.type)` discriminator. -/
inductive Tag
  | sessionInitTag
  | transcriptionTag
  | processingTag
  | agentSpeakingTag
  | agentFinishedTag
  | interruptedTag
  | errorTag
  | timeoutTag
  | heartbeatTag
  | sessionCompleteTag
  | unknownTag
deriving DecidableEq

def tagOf (t : String) : Tag :=
  if t = "session_initialized" then .sessionInitTag
  else if t = "transcription" then .transcriptionTag
  else if t = "processing" then .processingTag
  else if t = "agent_speaking" then .agentSpeakingTag
  else if t = "agent_finished" then .agentFinishedTag
  else if t = "interrupted" then .interruptedTag
  else if t = "error" then .errorTag
  else if t = "timeout" then .timeoutTag
  else if t = "heartbeat" then .heartbeatTag
  else if t = "session_complete" then .sessionCompleteTag
  else .unknownTag

/-- Method `handleMessage`: returns the new client state, the UI callbacks
invoked (in order), and the outbound JSON frames sent. -/
def handleMessage (s : ClientState) (m : VoiceMsg) :
    ClientState × List Callback × List JObj :=
  match tagOf m.type with
  | .sessionInitTag =>
      let sid := if truthy m.session_id then m.session_id else none
      ({ s with sessionId := sid },
       (match sid with
        | some i => if s.cfg.onSessionInit then [Callback.sessionInit i] else []
        | none => []),
       [])
  | .transcriptionTag =>
      (s,
       (if s.cfg.onTranscription && truthy m.text then
          [Callback.transcription (m.text.getD "") (m.is_final.getD false)]
        else []),
       [])
  | .processingTag =>
      (s,
       (if s.cfg.onProcessing && truthy m.message then
          [Callback.processing (m.message.getD "")]
        else []),
       [])
  | .agentSpeakingTag =>
      (s,
       (if s.cfg.onAgentSpeaking && truthy m.text then
          [Callback.agentSpeaking (m.text.getD "")]
        else []),
       [])
  | .agentFinishedTag =>
      (s,
       (if s.cfg.onAgentFinished then
          [Callback.agentFinished (m.session_complete.getD false)]
        else []),
       [])
  | .interruptedTag =>
      (s,
       (if s.cfg.onInterrupted then
          [Callback.interrupted (m.spoken_text.getD "") (m.has_pending_work.getD false)]
        else []),
       [])
  | .errorTag =>
      (s,
       (if s.cfg.onError && truthy m.message then
          [Callback.errorCb (m.message.getD "")]
        else []),
       [])
  | .timeoutTag =>
      (s, (if s.cfg.onTimeout then [Callback.timeoutCb] else []), [])
  | .heartbeatTag => (s, [], sendJson s (cmdMsg "ping"))
  | .sessionCompleteTag => (s, [], [])
  | .unknownTag => (s, [], [])

/-- Handler `ws.onmessage`, text branch: `JSON.parse` inside `try`/`catch`;
`none` is a frame on which parsing threw (the `catch` only logs). -/
def handleFrame (s : ClientState) (parsed : Option VoiceMsg) :
    ClientState × List Callback × List JObj :=
  match parsed with
  | none => (s, [], [])
  | some m => handleMessage s m

def recognizedTypes : List String :=
  ["session_initialized", "transcription", "processing", "agent_speaking",
   "agent_finished", "interrupted", "error", "timeout", "heartbeat",
   "session_complete"]

/-- Handler `ws.onopen`: sends the handshake, then marks the client connected
and zeroes the reconnection counter.  Returns the frames sent. -/
def onOpen (s : ClientState) (businessId userId : Int) : ClientState × List JObj :=
  ({ s with isConnected := true, reconnectAttempts := 0 },
   sendJson s (initMsg businessId userId))

/-- One scheduled `setTimeout(() => this.connect(...), reconnectDelay)`. -/
structure ScheduledConnect where
  delayMs : Nat
deriving DecidableEq

/-- Handler `ws.onclose`: marks the client disconnected, fires `onDisconnected`,
and, while the attempt counter is below the bound, increments it and
schedules one reconnect after `reconnectDelay`.  `sessionId` is not
touched. -/
def onClose (s : ClientState) : ClientState × List Callback × List ScheduledConnect :=
  let cbs := if s.cfg.onDisconnected then [Callback.disconnected] else []
  if s.reconnectAttempts < maxReconnectAttempts then
    ({ s with isConnected := false, reconnectAttempts := s.reconnectAttempts + 1 },
     cbs, [{ delayMs := reconnectDelay }])
  else
    ({ s with isConnected := false }, cbs, [])

/-- Method `disconnect()`: stops recording, clears the audio queue, sends
`{"command":"stop"}` when the socket is open, closes it, and resets
`isConnected` and `sessionId`. -/
def disconnectClient (s : ClientState) : ClientState × List JObj :=
  ({ s with isConnected := false, wsOpen := false, sessionId := none },
   sendJson s (cmdMsg "stop"))

/-!
## UI layer (`AIVoiceInterface` in `TileButton.tsx`)

The UI status is driven exclusively by the registered callbacks; the
capture pipeline (`client.startRecording()` / `client.stopRecording()`)
is started and stopped only by the `useEffect` watching the
`isListening` prop — no callback calls `stopRecording`. -/

inductive UiStatus
  | idle
  | connecting
  | listening
  | processing
  | speaking
  | errorSt
deriving DecidableEq

structure UiState where
  status : UiStatus
  uiConnected : Bool
deriving DecidableEq

def uiApply (u : UiState) : Callback → UiState
  | .sessionInit _ => { u with uiConnected := true, status := .idle }
  | .transcription _ _ => u
  | .processing _ => { u with status := .processing }
  | .agentSpeaking _ => { u with status := .speaking }
  | .agentFinished _ => { u with status := .idle }
  | .interrupted _ _ => u
  | .errorCb _ => { u with status := .errorSt }
  | .timeoutCb => { u with status := .errorSt }
  | .disconnected => { u with uiConnected := false, status := .idle }

/-- Client plus UI plus the capture pipeline flag (`mediaRecorder`
active).  `recording` is mutated only by the `useEffect` on the
`isListening` prop and by `disconnect()` — never by a callback. -/
structure Session where
  client : ClientState
  ui : UiState
  recording : Bool
deriving DecidableEq

/-- Delivery of one parsed inbound event: the client handles it and the
UI folds the invoked callbacks, in invocation order. -/
def dispatch (ss : Session) (m : VoiceMsg) : Session × List JObj :=
  let r := handleMessage ss.client m
  ({ client := r.1, ui := r.2.1.foldl uiApply ss.ui, recording := ss.recording },
   r.2.2)

def allCfg : Config := {}

def freshClient : ClientState :=
  { cfg := allCfg, sessionId := none, isConnected := false, wsOpen := true,
    reconnectAttempts := 0 }

def connectedClient : ClientState :=
  { cfg := allCfg, sessionId := some "abc", isConnected := true, wsOpen := true,
    reconnectAttempts := 0 }

def listeningSession : Session :=
  { client := connectedClient,
    ui := { status := .listening, uiConnected := true },
    recording := true }

theorem handleMessage_agent_speaking (s : ClientState) (t : String)
    (ht : t ≠ "") (hcfg : s.cfg.onAgentSpeaking = true) :
    handleMessage s { type := "agent_speaking", text := some t } =
      (s, [Callback.agentSpeaking t], []) := by
  unfold handleMessage
  rw [show tagOf ({ type := "agent_speaking", text := some t } : VoiceMsg).type =
        Tag.agentSpeakingTag from rfl]
  simp [truthy, ht, hcfg]

/-- C5 counterexample: while capture is active (`recording = true`,
status `listening`), receiving `agent_speaking` with text `"hello"`
moves the UI status to `speaking` but leaves the capture pipeline
running: no code path invokes `stopRecording` from the
`onAgentSpeaking` callback, so `recording` is still `true`, where the
claim requires capture to be stopped. -/
theorem agent_speaking_capture_counterexample :
    (dispatch listeningSession { type := "agent_speaking", text := some "hello" }).1.recording
        = true ∧
    (dispatch listeningSession { type := "agent_speaking", text := some "hello" }).1.ui.status
        = UiStatus.speaking := by
  decide

/-- C5 amended: an `agent_speaking` event with nonempty text received
while capturing sets the session state to `speaking`, but the capture
pipeline is NOT stopped — the recording flag is unchanged, and stays
as it was until the caller itself stops listening. -/
theorem agent_speaking_sets_speaking_keeps_capture (ss : Session) (t : String)
    (ht : t ≠ "") (hcfg : ss.client.cfg.onAgentSpeaking = true) :
    (dispatch ss { type := "agent_speaking", text := some t }).1.ui.status =
      UiStatus.speaking ∧
    (dispatch ss { type := "agent_speaking", text := some t }).1.recording =
      ss.recording := by
  simp only [dispatch]
  rw [handleMessage_agent_speaking ss.client t ht hcfg]
  simp [uiApply]

/-- Witness for the amended C5 at a concrete listening session. -/
theorem agent_speaking_keeps_capture_witness :
    (dispatch listeningSession { type := "agent_speaking", text := some "hi" }).1.ui.status =
      UiStatus.speaking ∧
    (dispatch listeningSession { type := "agent_speaking", text := some "hi" }).1.recording =
      listeningSession.recording :=
  agent_speaking_sets_speaking_keeps_capture listeningSession "hi" (by decide) (by decide)

/-- C6: after `connect(2, 1)` opens the channel, the only (hence first)
frame sent is exactly the JSON object with fields `business_id = 2`
and `user_id = 1` and no `command` field; subsequently handling
`{"type":"session_initialized","session_id":"abc"}` makes
`getSessionId()` return `"abc"` and invokes the
`onSessionInitialized` callback with `"abc"`. -/
theorem connect_handshake_session_init :
    (onOpen freshClient 2 1).2 = [[("business_id", JVal.num 2), ("user_id", JVal.num 1)]] ∧
    List.lookup "command" (initMsg 2 1) = none ∧
    getSessionId (handleMessage (onOpen freshClient 2 1).1
        { type := "session_initialized", session_id := some "abc" }).1 = some "abc" ∧
    (handleMessage (onOpen freshClient 2 1).1
        { type := "session_initialized", session_id := some "abc" }).2.1 =
      [Callback.sessionInit "abc"] := by
  decide

/-- C7: a text frame on which `JSON.parse` throws is dropped by the
`catch` (no callback, no state change, no outbound frame, no
propagated exception — `handleFrame` is total), and a parsed message
whose type tag is outside the recognized set falls through the
`switch` with no callback, no state change and no outbound frame. -/
theorem malformed_unknown_ignored (s : ClientState) (m : VoiceMsg)
    (h : m.type ∉ recognizedTypes) :
    handleFrame s none = (s, [], []) ∧ handleFrame s (some m) = (s, [], []) := by
  refine ⟨rfl, ?_⟩
  show handleMessage s m = (s, [], [])
  have htag : tagOf m.type = Tag.unknownTag := by
    simp only [recognizedTypes, List.mem_cons, List.not_mem_nil, or_false, not_or] at h
    obtain ⟨h1, h2, h3, h4, h5, h6, h7, h8, h9, h10⟩ := h
    simp [tagOf, h1, h2, h3, h4, h5, h6, h7, h8, h9, h10]
  unfold handleMessage
  rw [htag]

/-- Witness for C7: the unparsable frame, and the parsed-but-unhandled
tag `"pong"` (present in the `VoiceMessage` type union but absent
from the `switch`). -/
theorem malformed_unknown_ignored_witness :
    handleFrame freshClient none = (freshClient, [], []) ∧
    handleFrame freshClient (some { type := "pong" }) = (freshClient, [], []) :=
  malformed_unknown_ignored freshClient { type := "pong" } (by decide)

/-- C8: handling a `heartbeat` event on an open socket sends exactly the
outbound command object `{"command":"ping"}` and invokes no UI-facing
callback. -/
theorem heartbeat_sends_ping (s : ClientState) (m : VoiceMsg)
    (hm : m.type = "heartbeat") (hws : s.wsOpen = true) :
    handleMessage s m = (s, [], [[("command", JVal.str "ping")]]) := by
  unfold handleMessage
  rw [hm, show tagOf "heartbeat" = Tag.heartbeatTag from rfl]
  simp [sendJson, cmdMsg, hws]

/-- Witness for C8 on a concrete open client. -/
theorem heartbeat_sends_ping_witness :
    handleMessage freshClient { type := "heartbeat" } =
      (freshClient, [], [[("command", JVal.str "ping")]]) :=
  heartbeat_sends_ping freshClient { type := "heartbeat" } rfl rfl

/-- C9 counterexample: with an established session id `"abc"`, a
transport close (`ws.onclose`) does not clear `sessionId`:
`getSessionId()` still returns `"abc"`, not null — only the explicit
`disconnect()` method clears it. -/
theorem session_id_close_counterexample :
    getSessionId (onClose connectedClient).1 = some "abc" ∧
    getSessionId (onClose connectedClient).1 ≠ none := by
  decide

/-- C9 amended: `sessionId` is assigned only when a
`session_initialized` event is handled (every other message leaves it
unchanged); the explicit `disconnect()` clears it to null; a bare
transport close leaves it unchanged, so after `onclose` alone
`getSessionId()` still returns the previous id. -/
theorem session_id_lifecycle (s : ClientState) (m : VoiceMsg)
    (h : m.type ≠ "session_initialized") :
    (handleMessage s m).1.sessionId = s.sessionId ∧
    (onClose s).1.sessionId = s.sessionId ∧
    getSessionId (disconnectClient s).1 = none := by
  refine ⟨?_, ?_, rfl⟩
  · have htag : tagOf m.type ≠ Tag.sessionInitTag := by
      unfold tagOf
      rw [if_neg h]
      repeat' split
      all_goals simp
    unfold handleMessage
    cases htg : tagOf m.type
    case sessionInitTag => exact absurd htg htag
    all_goals rfl
  · unfold onClose
    by_cases hlt : s.reconnectAttempts < maxReconnectAttempts
    · simp [hlt]
    · simp [hlt]

/-- Witness for the amended C9 at a concrete connected client and a
non-`session_initialized` message. -/
theorem session_id_lifecycle_witness :
    (handleMessage connectedClient { type := "heartbeat" }).1.sessionId =
      connectedClient.sessionId ∧
    (onClose connectedClient).1.sessionId = connectedClient.sessionId ∧
    getSessionId (disconnectClient connectedClient).1 = none :=
  session_id_lifecycle connectedClient { type := "heartbeat" } (by decide)

/-- C10: a recognized event of tag `transcription` or `agent_speaking`
whose `text` is absent or `""`, or of tag `processing` or `error`
whose `message` is absent or `""`, is silently dropped: no callback is
invoked, no state changes, nothing is sent — in particular an `error`
event with no message produces no error callback. -/
theorem empty_payload_dropped (s : ClientState) (m : VoiceMsg)
    (h : (m.type = "transcription" ∨ m.type = "agent_speaking") ∧ truthy m.text = false ∨
         (m.type = "processing" ∨ m.type = "error") ∧ truthy m.message = false) :
    handleMessage s m = (s, [], []) := by
  rcases h with ⟨ht | ht, hf⟩ | ⟨ht | ht, hf⟩
  · unfold handleMessage
    rw [ht, show tagOf "transcription" = Tag.transcriptionTag from rfl]
    simp [hf]
  · unfold handleMessage
    rw [ht, show tagOf "agent_speaking" = Tag.agentSpeakingTag from rfl]
    simp [hf]
  · unfold handleMessage
    rw [ht, show tagOf "processing" = Tag.processingTag from rfl]
    simp [hf]
  · unfold handleMessage
    rw [ht, show tagOf "error" = Tag.errorTag from rfl]
    simp [hf]

/-- Witness for C10: an `error` event with no `message` field produces
no error callback and no state change. -/
theorem empty_payload_dropped_witness :
    handleMessage freshClient { type := "error" } = (freshClient, [], []) :=
  empty_payload_dropped freshClient { type := "error" } (by decide)

/-!
## Reconnection policy

A run of consecutive transport closures with no intervening successful
open: each `ws.onclose` fires, the UI folds the invoked callbacks, and
the scheduled reconnect attempts accumulate. -/

structure CloseRun where
  client : ClientState
  ui : UiState
  fired : List Callback
  scheduled : List ScheduledConnect
deriving DecidableEq

def stepClose (r : CloseRun) : CloseRun :=
  { client := (onClose r.client).1,
    ui := (onClose r.client).2.1.foldl uiApply r.ui,
    fired := r.fired ++ (onClose r.client).2.1,
    scheduled := r.scheduled ++ (onClose r.client).2.2 }

def iterClose (r : CloseRun) : Nat → CloseRun
  | 0 => r
  | n + 1 => stepClose (iterClose r n)

def startRun : CloseRun :=
  { client := connectedClient,
    ui := { status := .idle, uiConnected := true },
    fired := [], scheduled := [] }

theorem stepClose_fields (r : CloseRun)
    (hcfg : r.client.cfg.onDisconnected = true) :
    (stepClose r).client.cfg = r.client.cfg ∧
    (stepClose r).client.reconnectAttempts =
      (if r.client.reconnectAttempts < maxReconnectAttempts then
        r.client.reconnectAttempts + 1
       else r.client.reconnectAttempts) ∧
    (stepClose r).scheduled = r.scheduled ++
      (if r.client.reconnectAttempts < maxReconnectAttempts then
        [{ delayMs := reconnectDelay }]
       else []) ∧
    (stepClose r).fired = r.fired ++ [Callback.disconnected] ∧
    (stepClose r).ui.status = UiStatus.idle := by
  unfold stepClose onClose
  by_cases hlt : r.client.reconnectAttempts < maxReconnectAttempts
  · simp [hlt, hcfg, uiApply]
  · simp [hlt, hcfg, uiApply]

theorem iterClose_spec (n : Nat) :
    (iterClose startRun n).client.cfg = allCfg ∧
    (iterClose startRun n).client.reconnectAttempts = min n maxReconnectAttempts ∧
    (iterClose startRun n).scheduled =
      List.replicate (min n maxReconnectAttempts) { delayMs := reconnectDelay } ∧
    (iterClose startRun n).fired = List.replicate n Callback.disconnected ∧
    (iterClose startRun n).ui.status = UiStatus.idle := by
  induction n with
  | zero => exact ⟨rfl, rfl, rfl, rfl, rfl⟩
  | succ n ih =>
      obtain ⟨hcfg, hatt, hsch, hfi, hst⟩ := ih
      have hd : (iterClose startRun n).client.cfg.onDisconnected = true := by
        rw [hcfg]; rfl
      obtain ⟨g1, g2, g3, g4, g5⟩ := stepClose_fields (iterClose startRun n) hd
      have hit : iterClose startRun (n + 1) = stepClose (iterClose startRun n) := rfl
      refine ⟨by rw [hit, g1, hcfg], ?_, ?_, ?_, by rw [hit]; exact g5⟩
      · rw [hit, g2]
        simp only [hatt, maxReconnectAttempts]
        split <;> omega
      · rw [hit, g3, hsch]
        simp only [hatt, maxReconnectAttempts]
        by_cases hn : n < 3
        · rw [if_pos (by omega), ← List.replicate_succ']
          congr 1
          omega
        · rw [if_neg (by omega), List.append_nil]
          congr 1
          omega
      · rw [hit, g4, hfi, ← List.replicate_succ']

/-- C4 counterexample: after 4 consecutive transport closures (the bound
is 3) the client scheduled exactly 3 reconnect attempts and stopped,
but it did not end in an error state: the only callbacks ever fired
are 4 `onDisconnected` (never `onError`), and the UI status is `idle`,
not `error`. -/
theorem reconnect_error_state_counterexample :
    (iterClose startRun 4).scheduled.length = 3 ∧
    (iterClose startRun 4).fired = List.replicate 4 Callback.disconnected ∧
    (iterClose startRun 4).ui.status = UiStatus.idle ∧
    (iterClose startRun 4).ui.status ≠ UiStatus.errorSt := by
  decide

/-- C4 amended: after a transport close the client retries with the
fixed 2000ms delay, up to the fixed bound of 3 consecutive attempts:
N consecutive closures schedule exactly `min N 3` reconnects, each
with delay 2000ms, and once the bound is exceeded no further automatic
reconnect occurs without an explicit new `connect()`; the session does
NOT end in an error state — each closure fires only the disconnected
callback and the UI status stays `idle`. -/
theorem reconnect_bounded_no_error (n : Nat) :
    (iterClose startRun n).scheduled =
      List.replicate (min n maxReconnectAttempts) { delayMs := reconnectDelay } ∧
    (iterClose startRun n).fired = List.replicate n Callback.disconnected ∧
    (iterClose startRun n).ui.status = UiStatus.idle ∧
    (iterClose startRun n).ui.status ≠ UiStatus.errorSt := by
  obtain ⟨_, _, h3, h4, h5⟩ := iterClose_spec n
  refine ⟨h3, h4, h5, ?_⟩
  rw [h5]
  decide

end Sia
